import Mathlib

/-!
Verification of core behaviors of the finbot expense-tracking assistant.

The development is a shallow embedding of the relevant Python modules:

- `src/finbot/ledger/balance.py` — balance derivation by ledger replay
- `src/finbot/ledger/validation.py` — settlement validation rules
- `src/finbot/agent/state.py` — conversation state models and store
- `src/finbot/agent/llm_client.py` — the composite fallback LLM client
- `src/finbot/agent/orchestrator.py` — the conversation state machine and
  its deterministic post-processing helpers

Python `Decimal` and `float` values are modelled as exact rationals (`ℚ`);
all concrete inputs appearing in the theorems are exactly representable, and
the modelled comparisons and arithmetic coincide with the source on them.
Python strings are modelled as `String` / `List Char`.
-/

namespace Finbot

/-! ## Ledger entries and balance derivation (`ledger/balance.py`) -/

/-- A ledger entry, as consumed by the balance engine
(`finbot/ledger/models.py`; only the fields read by `balance.py` and the
split fields are carried). -/
structure LedgerEntry where
  event_type : String
  amount : ℚ
  split_payer_pct : ℚ
  split_other_pct : ℚ
  payer_telegram_id : ℤ
deriving DecidableEq, Repr

/-- Embeds `_expense_effect` (balance.py lines 75-99): the other partner
owes the payer `amount * split_other_pct / 100`. -/
def expense_effect (entry : LedgerEntry) (user_a_id user_b_id : ℤ) : ℚ :=
  let other_share := entry.amount * entry.split_other_pct / 100
  if entry.payer_telegram_id = user_a_id then other_share
  else if entry.payer_telegram_id = user_b_id then -other_share
  else 0

/-- Embeds `_settlement_effect` (balance.py lines 102-129): a settlement
shifts the balance by the full amount. -/
def settlement_effect (entry : LedgerEntry) (user_a_id user_b_id : ℤ) : ℚ :=
  if entry.payer_telegram_id = user_a_id then entry.amount
  else if entry.payer_telegram_id = user_b_id then -entry.amount
  else 0

/-- Embeds `_entry_effect` (balance.py lines 57-72): dispatch on the event
type; unknown event types are ignored. -/
def entry_effect (entry : LedgerEntry) (user_a_id user_b_id : ℤ) : ℚ :=
  if entry.event_type = "expense" ∨ entry.event_type = "correction" then
    expense_effect entry user_a_id user_b_id
  else if entry.event_type = "settlement" then
    settlement_effect entry user_a_id user_b_id
  else 0

/-- Embeds `get_balance` (balance.py lines 18-54) on a pre-fetched entry
list: accumulate `_entry_effect` over the entries starting from zero. -/
def get_balance (user_a_id user_b_id : ℤ) (entries : List LedgerEntry) : ℚ :=
  entries.foldl (fun balance entry => balance + entry_effect entry user_a_id user_b_id) 0

/-- Stated from the wording of spec section 4.3: the per-entry contribution
the specification describes, written independently of the code above so the
code can be compared against it. -/
def specEntryContribution (a b : ℤ) (e : LedgerEntry) : ℚ :=
  if e.event_type = "expense" ∨ e.event_type = "correction" then
    if e.payer_telegram_id = a then e.amount * e.split_other_pct / 100
    else if e.payer_telegram_id = b then -(e.amount * e.split_other_pct / 100)
    else 0
  else if e.event_type = "settlement" then
    if e.payer_telegram_id = a then e.amount
    else if e.payer_telegram_id = b then -e.amount
    else 0
  else 0

theorem foldl_add_eq_sum_map (f : LedgerEntry → ℚ) (l : List LedgerEntry) (init : ℚ) :
    l.foldl (fun acc e => acc + f e) init = init + (l.map f).sum := by
  induction l generalizing init with
  | nil => simp
  | cons x xs ih => simp [List.foldl_cons, ih, add_assoc]

theorem entry_effect_eq_spec (a b : ℤ) (e : LedgerEntry) :
    entry_effect e a b = specEntryContribution a b e := by
  unfold entry_effect expense_effect settlement_effect specEntryContribution
  by_cases h1 : e.event_type = "expense" ∨ e.event_type = "correction" <;>
    by_cases h2 : e.event_type = "settlement" <;>
    by_cases h3 : e.payer_telegram_id = a <;>
    by_cases h4 : e.payer_telegram_id = b <;>
    simp [h1, h2, h3, h4]

/-- C1: `get_balance(A, B, entries)` equals the sum, starting from zero, of
per-entry contributions computed by event kind: for "expense" or
"correction" entries the contribution is the signed other share
(`amount * split_other_pct / 100`, positive when A paid, negative when B
paid, zero for any other payer); for "settlement" entries it is the signed
full amount; entries of any other event kind contribute zero. -/
theorem get_balance_is_sum_of_contributions
    (a b : ℤ) (entries : List LedgerEntry) (hab : a ≠ b) :
    get_balance a b entries = (entries.map (specEntryContribution a b)).sum := by
  unfold get_balance
  rw [foldl_add_eq_sum_map, zero_add]
  exact congrArg List.sum (List.map_congr_left fun e _ => entry_effect_eq_spec a b e)

theorem get_balance_is_sum_of_contributions_witness :
    (1 : ℤ) ≠ (2 : ℤ) ∧
      get_balance 1 2
          [⟨"expense", 300, 50, 50, 1⟩, ⟨"settlement", 100, 100, 0, 2⟩, ⟨"voided", 7, 50, 50, 1⟩] =
        ([⟨"expense", 300, 50, 50, 1⟩, ⟨"settlement", 100, 100, 0, 2⟩,
            (⟨"voided", 7, 50, 50, 1⟩ : LedgerEntry)].map (specEntryContribution 1 2)).sum :=
  ⟨by decide,
    get_balance_is_sum_of_contributions 1 2
      [⟨"expense", 300, 50, 50, 1⟩, ⟨"settlement", 100, 100, 0, 2⟩, ⟨"voided", 7, 50, 50, 1⟩]
      (by decide)⟩

theorem entry_effect_swap (a b : ℤ) (hab : a ≠ b) (e : LedgerEntry) :
    entry_effect e b a = -entry_effect e a b := by
  unfold entry_effect expense_effect settlement_effect
  by_cases h3 : e.payer_telegram_id = a
  · have h4 : e.payer_telegram_id ≠ b := fun h => hab (h3.symm.trans h)
    by_cases h1 : e.event_type = "expense" ∨ e.event_type = "correction" <;>
      by_cases h2 : e.event_type = "settlement" <;>
      simp [h1, h2, h3, h4, hab, Ne.symm hab]
  · by_cases h4 : e.payer_telegram_id = b <;>
      by_cases h1 : e.event_type = "expense" ∨ e.event_type = "correction" <;>
      by_cases h2 : e.event_type = "settlement" <;>
      simp [h1, h2, h3, h4, hab, Ne.symm hab]

/-- C4: swapping the two party arguments negates the derived balance:
`get_balance(A, B, entries) = -get_balance(B, A, entries)` for distinct
parties A and B, on the identical entry list. -/
theorem get_balance_antisymm (a b : ℤ) (entries : List LedgerEntry) (hab : a ≠ b) :
    get_balance a b entries = -get_balance b a entries := by
  unfold get_balance
  rw [foldl_add_eq_sum_map, foldl_add_eq_sum_map, zero_add, zero_add]
  induction entries with
  | nil => simp
  | cons x xs ih =>
      simp only [List.map_cons, List.sum_cons, ih, entry_effect_swap a b hab x, neg_add]
      ring

theorem get_balance_antisymm_witness :
    (1 : ℤ) ≠ (2 : ℤ) ∧
      get_balance 1 2 [⟨"expense", 300, 70, 30, 2⟩, ⟨"settlement", 40, 100, 0, 1⟩] =
        -get_balance 2 1 [⟨"expense", 300, 70, 30, 2⟩, ⟨"settlement", 40, 100, 0, 1⟩] :=
  ⟨by decide,
    get_balance_antisymm 1 2 [⟨"expense", 300, 70, 30, 2⟩, ⟨"settlement", 40, 100, 0, 1⟩]
      (by decide)⟩

/-! ## Settlement validation (`ledger/validation.py`)

The Python validator returns human-readable strings; each distinct message
is modelled as a constructor carrying the values interpolated into it.
Messages beginning with `warn` correspond to strings starting with
`"WARNING:"` (non-blocking); the others are blocking errors. -/

/-- The validation error and warning messages produced by
`validate_settlement` (validation.py lines 38-94). -/
inductive ValidationMsg where
  | amountNotPositive
  | payerNotPartner (payer a b : ℤ)
  | partnersNotDistinct
  | warnNoDebt (amount : ℚ)
  | warnExceeds (amount debt : ℚ)
deriving DecidableEq, Repr

/-- Embeds `_check_overpayment` (validation.py lines 61-94): compute the
payer outstanding debt under the positive-means-b-owes-a convention and
append at most one warning. -/
def check_overpayment (errors : List ValidationMsg) (amount : ℚ)
    (payer_telegram_id user_a_id : ℤ) (balance : ℚ) : List ValidationMsg :=
  let debt : ℚ :=
    if payer_telegram_id = user_a_id then
      if balance < 0 then |balance| else 0
    else
      if balance > 0 then balance else 0
  if debt = 0 then errors ++ [.warnNoDebt amount]
  else if amount > debt then errors ++ [.warnExceeds amount debt]
  else errors

/-- Embeds `validate_settlement` (validation.py lines 15-58): the three
blocking rules in order, then the overpayment check, which runs only when a
balance is supplied and the amount is positive. -/
def validate_settlement (amount : ℚ) (payer_telegram_id user_a_id user_b_id : ℤ)
    (current_balance : Option ℚ) : List ValidationMsg :=
  let errors : List ValidationMsg := []
  let errors := if amount ≤ 0 then errors ++ [.amountNotPositive] else errors
  let errors :=
    if payer_telegram_id ≠ user_a_id ∧ payer_telegram_id ≠ user_b_id then
      errors ++ [.payerNotPartner payer_telegram_id user_a_id user_b_id]
    else errors
  let errors := if user_a_id = user_b_id then errors ++ [.partnersNotDistinct] else errors
  match current_balance with
  | some balance =>
      if amount > 0 then check_overpayment errors amount payer_telegram_id user_a_id balance
      else errors
  | none => errors

/-- The debt `_check_overpayment` attributes to the payer, exposed for the
statements below. -/
def payerDebt (payer_telegram_id user_a_id : ℤ) (balance : ℚ) : ℚ :=
  if payer_telegram_id = user_a_id then
    if balance < 0 then |balance| else 0
  else
    if balance > 0 then balance else 0

/-- C2 counterexample: with a proposed amount of 0, payer `user_a` and a
supplied balance of 0, the payer owes nothing, yet the returned list is
exactly the blocking amount-positivity error — the zero-debt credit warning
is NOT present, because the overpayment check is skipped whenever the
amount is not positive. This falsifies the claim that the credit warnings
are emitted independently of the amount-positivity rule. -/
theorem validate_settlement_warning_skipped_counterexample :
    validate_settlement 0 1 1 2 (some 0) = [ValidationMsg.amountNotPositive] ∧
      payerDebt 1 1 0 = 0 ∧
      ValidationMsg.warnNoDebt 0 ∉ validate_settlement 0 1 1 2 (some 0) := by
  refine ⟨by decide, by decide, ?_⟩
  decide

/-- C2 (amended): whenever a balance is supplied and the proposed amount is
strictly positive, the credit warnings are emitted independently of the
payer-identity and distinct-partners rules: if the payer outstanding debt
is zero the zero-debt warning is in the returned list, and if the debt is
positive and the amount exceeds it the exceeds-balance warning is in the
returned list — even when those other rules also contribute blocking
errors. When the amount is not positive the overpayment check is skipped
entirely. -/
theorem validate_settlement_warning_rules
    (amount : ℚ) (payer a b : ℤ) (balance : ℚ) (hpos : amount > 0) :
    (payerDebt payer a balance = 0 →
      ValidationMsg.warnNoDebt amount ∈ validate_settlement amount payer a b (some balance)) ∧
    (0 < payerDebt payer a balance → amount > payerDebt payer a balance →
      ValidationMsg.warnExceeds amount (payerDebt payer a balance) ∈
        validate_settlement amount payer a b (some balance)) := by
  unfold validate_settlement check_overpayment payerDebt
  constructor
  · intro hdebt
    simp [hpos, not_le.mpr hpos, hdebt]
  · intro hdebt hgt
    simp [hpos, not_le.mpr hpos, ne_of_gt hdebt, hgt]

theorem validate_settlement_warning_rules_witness :
    (5 : ℚ) > 0 ∧
      (payerDebt 9 1 0 = 0 →
        ValidationMsg.warnNoDebt 5 ∈ validate_settlement 5 9 1 1 (some 0)) :=
  ⟨by decide, (validate_settlement_warning_rules 5 9 1 1 0 (by decide)).1⟩

/-! ## Conversation state models (`agent/state.py`) -/

/-- Embeds `ConversationState` (state.py lines 27-35). -/
inductive ConversationState where
  | IDLE
  | PARSING
  | VALIDATING
  | CLARIFYING
  | CONFIRMING
  | COMMITTING
deriving DecidableEq, Repr

/-- Embeds `PendingExpense` (state.py lines 50-92); Python `float` fields
are rationals, optional fields are `Option`. The pydantic defaults are the
field defaults. -/
structure PendingExpense where
  amount : Option ℚ := none
  currency : String := "ILS"
  category : Option String := none
  description : Option String := none
  payer : Option String := none
  split_payer_pct : Option ℚ := none
  split_other_pct : Option ℚ := none
  event_date : Option String := none
  notes : List String := []
deriving DecidableEq, Repr

/-- Embeds `REQUIRED_EXPENSE_FIELDS` (state.py lines 41-47). -/
def REQUIRED_EXPENSE_FIELDS : List String :=
  ["amount", "category", "payer", "split_payer_pct", "split_other_pct"]

/-- Models `getattr(self, field_name) is None` for the field names that
occur in `REQUIRED_EXPENSE_FIELDS`. -/
def PendingExpense.fieldIsNone (e : PendingExpense) (f : String) : Bool :=
  if f = "amount" then e.amount.isNone
  else if f = "category" then e.category.isNone
  else if f = "payer" then e.payer.isNone
  else if f = "split_payer_pct" then e.split_payer_pct.isNone
  else if f = "split_other_pct" then e.split_other_pct.isNone
  else false

/-- Embeds `PendingExpense.missing_fields` (state.py lines 94-100): the
required field names whose value is still absent, in declaration order. -/
def PendingExpense.missing_fields (e : PendingExpense) : List String :=
  REQUIRED_EXPENSE_FIELDS.filter e.fieldIsNone

/-- Embeds `PendingExpense.is_complete` (state.py lines 102-104). -/
def PendingExpense.is_complete (e : PendingExpense) : Bool :=
  e.missing_fields.length == 0

/-- Embeds `ConversationContext` (state.py lines 121-147); the `uuid.UUID`
raw-input reference is abstracted to a natural number. -/
structure ConversationContext where
  state : ConversationState := .IDLE
  raw_input_id : Option ℕ := none
  pending_expenses : List PendingExpense := []
  clarification_field : Option String := none
  confirmation_message_id : Option ℕ := none
  original_text : Option String := none
  is_settlement : Bool := false
  renaming_category : Option String := none
deriving DecidableEq, Repr

/-- The context produced by `ConversationContext()` with all defaults. -/
def ConversationContext.init : ConversationContext := {}

/-- Embeds `ConversationContext.all_complete` (state.py lines 149-151). -/
def ConversationContext.all_complete (ctx : ConversationContext) : Bool :=
  ctx.pending_expenses.all PendingExpense.is_complete

/-- Loop of `ConversationContext.first_missing` (state.py lines 153-162),
carrying the running index. -/
def firstMissingAux : ℕ → List PendingExpense → Option (ℕ × String)
  | _, [] => none
  | i, e :: rest =>
      match e.missing_fields with
      | [] => firstMissingAux (i + 1) rest
      | f :: _ => some (i, f)

/-- Embeds `ConversationContext.first_missing` (state.py lines 153-162). -/
def ConversationContext.first_missing (ctx : ConversationContext) : Option (ℕ × String) :=
  firstMissingAux 0 ctx.pending_expenses

theorem is_complete_iff_missing_nil (e : PendingExpense) :
    e.is_complete = true ↔ e.missing_fields = [] := by
  unfold PendingExpense.is_complete
  cases e.missing_fields <;> simp

theorem firstMissingAux_spec (l : List PendingExpense) :
    ∀ (k i : ℕ) (e : PendingExpense) (f : String),
      l[i]? = some e →
      (∀ j, j < i → ∀ e', l[j]? = some e' → e'.is_complete = true) →
      e.missing_fields = [f] →
      firstMissingAux k l = some (k + i, f) := by
  induction l with
  | nil => intro k i e f h; simp at h
  | cons x xs ih =>
      intro k i e f h hprev hmiss
      cases i with
      | zero =>
          simp only [List.getElem?_cons_zero, Option.some.injEq] at h
          subst h
          simp [firstMissingAux, hmiss]
      | succ i' =>
          have hx : x.is_complete = true :=
            hprev 0 (Nat.succ_pos i') x (by simp)
          have hxnil := (is_complete_iff_missing_nil x).mp hx
          simp only [List.getElem?_cons_succ] at h
          have hrec := ih (k + 1) i' e f h
            (fun j hj e' hj' => hprev (j + 1) (Nat.succ_lt_succ hj) e' (by simpa using hj'))
            hmiss
          simp only [firstMissingAux, hxnil]
          rw [show k + (i' + 1) = k + 1 + i' by omega]
          exact hrec

theorem firstMissingAux_none_iff (l : List PendingExpense) :
    ∀ k, firstMissingAux k l = none ↔ l.all PendingExpense.is_complete = true := by
  induction l with
  | nil => intro k; simp [firstMissingAux]
  | cons x xs ih =>
      intro k
      simp only [List.all_cons, Bool.and_eq_true]
      cases hx : x.missing_fields with
      | nil =>
          have hxc : x.is_complete = true := (is_complete_iff_missing_nil x).mpr hx
          simp [firstMissingAux, hx, hxc, ih (k + 1)]
      | cons f rest =>
          have hxc : x.is_complete ≠ true := by
            simp [is_complete_iff_missing_nil, hx]
          simp [firstMissingAux, hx, hxc]

/-- C6: a pending expense is complete iff the five required fields —
amount, category, payer, split_payer_pct, split_other_pct — are all
present; when the first incomplete pending expense of a context is missing
exactly one required field, `first_missing` returns that expense index
paired with that field name; and `first_missing` returns `none` exactly
when every pending expense is complete. -/
theorem pending_expense_completeness :
    (∀ e : PendingExpense,
      e.is_complete = true ↔
        (e.amount ≠ none ∧ e.category ≠ none ∧ e.payer ≠ none ∧
          e.split_payer_pct ≠ none ∧ e.split_other_pct ≠ none)) ∧
    (∀ (ctx : ConversationContext) (i : ℕ) (e : PendingExpense) (f : String),
      ctx.pending_expenses[i]? = some e →
      (∀ j, j < i → ∀ e', ctx.pending_expenses[j]? = some e' → e'.is_complete = true) →
      e.missing_fields = [f] →
      ctx.first_missing = some (i, f)) ∧
    (∀ ctx : ConversationContext, ctx.first_missing = none ↔ ctx.all_complete = true) := by
  refine ⟨?_, ?_, ?_⟩
  · intro e
    cases ha : e.amount <;> cases hc : e.category <;> cases hp : e.payer <;>
      cases hs1 : e.split_payer_pct <;> cases hs2 : e.split_other_pct <;>
      simp [PendingExpense.is_complete, PendingExpense.missing_fields,
        REQUIRED_EXPENSE_FIELDS, PendingExpense.fieldIsNone, ha, hc, hp, hs1, hs2]
  · intro ctx i e f h hprev hmiss
    have := firstMissingAux_spec ctx.pending_expenses 0 i e f h hprev hmiss
    simpa [ConversationContext.first_missing] using this
  · intro ctx
    simpa [ConversationContext.first_missing, ConversationContext.all_complete] using
      firstMissingAux_none_iff ctx.pending_expenses 0

theorem pending_expense_completeness_witness :
    ({ amount := some 300, category := some "groceries", payer := some "user",
        split_payer_pct := some 50, split_other_pct := some 50 } : PendingExpense).is_complete
        = true ∧
      ConversationContext.first_missing
          { pending_expenses :=
              [{ amount := some 300, category := some "groceries", payer := some "user",
                  split_payer_pct := some 50, split_other_pct := some 50 },
                { amount := some 40, payer := some "user",
                  split_payer_pct := some 50, split_other_pct := some 50 }] } =
        some (1, "category") := by
  constructor
  · exact (pending_expense_completeness.1 _).mpr (by decide)
  · exact pending_expense_completeness.2.1
      { pending_expenses :=
          [{ amount := some 300, category := some "groceries", payer := some "user",
              split_payer_pct := some 50, split_other_pct := some 50 },
            { amount := some 40, payer := some "user",
              split_payer_pct := some 50, split_other_pct := some 50 }] }
      1
      { amount := some 40, payer := some "user",
        split_payer_pct := some 50, split_other_pct := some 50 }
      "category"
      (by decide)
      (by
        intro j hj e' he'
        have hj0 : j = 0 := by omega
        subst hj0
        simp only [List.getElem?_cons_zero, Option.some.injEq] at he'
        subst he'
        decide)
      (by decide)

/-! ## The in-memory conversation store (`state.py` lines 168-194) and the
store effects of `handle_callback` (`orchestrator.py` lines 194-225) -/

/-- Embeds `ConversationStore`: a dict keyed by Telegram user id, modelled
as a total map into `Option`. -/
structure ConversationStore where
  map : ℤ → Option ConversationContext

/-- A store with no entries (fresh process). -/
def ConversationStore.empty : ConversationStore := ⟨fun _ => none⟩

/-- Embeds `ConversationStore.get` (state.py lines 178-182): returns the
context for the user, first inserting a fresh default context when the user
is absent. The returned store is the (possibly mutated) dict. -/
def ConversationStore.get (s : ConversationStore) (user_id : ℤ) :
    ConversationContext × ConversationStore :=
  match s.map user_id with
  | some ctx => (ctx, s)
  | none =>
      (ConversationContext.init,
        ⟨fun v => if v = user_id then some ConversationContext.init else s.map v⟩)

/-- Embeds `ConversationStore.set` (state.py lines 184-186). -/
def ConversationStore.set (s : ConversationStore) (user_id : ℤ)
    (ctx : ConversationContext) : ConversationStore :=
  ⟨fun v => if v = user_id then some ctx else s.map v⟩

/-- Embeds `ConversationStore.clear` (state.py lines 188-190). -/
def ConversationStore.clear (s : ConversationStore) (user_id : ℤ) : ConversationStore :=
  ⟨fun v => if v = user_id then none else s.map v⟩

/-- Embeds `ConversationStore.has` (state.py lines 192-194). -/
def ConversationStore.has (s : ConversationStore) (user_id : ℤ) : Bool :=
  (s.map user_id).isSome

/-- Classification of the replies `handle_callback` can produce; the texts
themselves are rendered by the handler layer and carry no further state. -/
inductive CallbackReply where
  | nothingPending
  | committed
  | commitMissingInput
  | editPrompt
  | cancelled
  | unknownAction
deriving DecidableEq, Repr

/-- The callback action token `callback_data.split(":")[0]` (orchestrator.py
line 211): the text before the first colon. -/
def callbackAction (callback_data : String) : String :=
  String.mk (callback_data.toList.takeWhile (fun c => c ≠ ':'))

/-- Embeds the store effects and reply classification of
`Orchestrator.handle_callback` (orchestrator.py lines 194-225) together
with the store effects of `_commit` (lines 697-767), `_start_edit` (lines
771-789) and `_cancel` (lines 793-801). The ledger writes and reply
formatting inside `_commit` live outside the store model. -/
def handle_callback (s : ConversationStore) (user_id : ℤ) (callback_data : String) :
    CallbackReply × ConversationStore :=
  let (ctx, s1) := s.get user_id
  let action := callbackAction callback_data
  if ctx.state ≠ ConversationState.CONFIRMING then (.nothingPending, s1)
  else if action = "confirm" then
    if ctx.raw_input_id = none then (.commitMissingInput, s1.clear user_id)
    else
      let s2 := s1.set user_id { ctx with state := .COMMITTING }
      (.committed, s2.clear user_id)
  else if action = "edit" then
    (.editPrompt, s1.set user_id { ctx with state := .CLARIFYING, clarification_field := none })
  else if action = "cancel" then
    (.cancelled, (s1.get user_id).2.clear user_id)
  else (.unknownAction, s1)

/-- C10: `ConversationStore.get` is not a pure read — for an absent user it
inserts a fresh IDLE context, so `has` flips to true after a mere `get`;
consequently `handle_callback` for a user with no session returns the
nothing-pending reply while leaving a newly created IDLE context stored,
and for a stored session not in CONFIRMING it returns the nothing-pending
reply with the store unchanged. -/
theorem store_get_creates_and_callback_leaves_context
    (s : ConversationStore) (u : ℤ) (data : String) :
    (s.has u = false →
      (s.get u).1 = ConversationContext.init ∧
      (s.get u).2.has u = true ∧
      (handle_callback s u data).1 = CallbackReply.nothingPending ∧
      (handle_callback s u data).2.map u = some ConversationContext.init) ∧
    (∀ c, s.map u = some c → c.state ≠ ConversationState.CONFIRMING →
      (handle_callback s u data).1 = CallbackReply.nothingPending ∧
      (handle_callback s u data).2 = s) := by
  constructor
  · intro h
    have hm : s.map u = none := by
      unfold ConversationStore.has at h
      cases hsm : s.map u with
      | none => rfl
      | some c => rw [hsm] at h; simp at h
    have hstate : ConversationContext.init.state = ConversationState.IDLE := rfl
    refine ⟨?_, ?_, ?_, ?_⟩ <;>
      simp [ConversationStore.get, hm, ConversationStore.has, handle_callback,
        ConversationContext.init]
  · intro c hc hstate
    constructor <;>
      simp [handle_callback, ConversationStore.get, hc, hstate]

theorem store_get_creates_and_callback_leaves_context_witness :
    ConversationStore.empty.has 7 = false ∧
      (ConversationStore.empty.get 7).1 = ConversationContext.init ∧
      (ConversationStore.empty.get 7).2.has 7 = true ∧
      (handle_callback ConversationStore.empty 7 "confirm").1 = CallbackReply.nothingPending ∧
      (handle_callback ConversationStore.empty 7 "confirm").2.map 7 =
        some ConversationContext.init := by
  have h := (store_get_creates_and_callback_leaves_context ConversationStore.empty 7 "confirm").1
    (by rfl)
  exact ⟨by rfl, h.1, h.2.1, h.2.2.1, h.2.2.2⟩

/-! ## The composite fallback LLM client (`agent/llm_client.py`) -/

/-- Embeds `ToolCall` (llm_client.py lines 30-35); the argument mapping is
carried as opaque serialized data — the fallback client never inspects it. -/
structure ToolCall where
  id : String := ""
  name : String
  arguments : String
deriving DecidableEq, Repr

/-- Embeds `LLMResponse` (llm_client.py lines 38-47). -/
structure LLMResponse where
  content : String := ""
  tool_calls : List ToolCall := []
  input_tokens : Option ℕ := none
  output_tokens : Option ℕ := none
  latency_ms : Option ℕ := none
  provider : String := ""
  model : String := ""
deriving DecidableEq, Repr

/-- Embeds `ChatMessage` (llm_client.py lines 53-59). -/
structure ChatMessage where
  role : String
  content : String := ""
  tool_call_id : Option String := none
deriving DecidableEq, Repr

/-- A tool schema (llm_client.py line 64) is an opaque JSON object the
composite client passes through untouched. -/
def ToolSchema : Type := String

/-- A chat operation, the shape of `LLMClient.chat`: a Python client either
returns a response or raises; a raised exception is modelled as
`Except.error` carrying its class-and-message description. -/
def ChatFun : Type :=
  List ChatMessage → Option (List ToolSchema) → Except String LLMResponse

/-- The provider tagging of llm_client.py line 374. -/
def tagFallback (r : LLMResponse) : LLMResponse :=
  { r with provider := r.provider ++ " (fallback)" }

/-- Embeds `FallbackLLMClient.chat` (llm_client.py lines 346-384): try the
primary; on any exception call the fallback with the same arguments, tag a
successful fallback response, and let a fallback exception propagate. -/
def FallbackLLMClient.chat (primary fallback : ChatFun)
    (messages : List ChatMessage) (tools : Option (List ToolSchema)) :
    Except String LLMResponse :=
  match primary messages tools with
  | .ok response => .ok response
  | .error _ =>
      match fallback messages tools with
      | .ok response => .ok (tagFallback response)
      | .error e => .error e

/-- C5: if the primary client succeeds its response is returned unmodified
and the result does not depend on the fallback client at all; if the
primary raises any exception, the fallback is invoked with exactly the same
messages and tools — its successful response is returned with the provider
field tagged as a fallback result, and its exception propagates to the
caller. -/
theorem fallback_client_chat_contract (primary fallback : ChatFun)
    (messages : List ChatMessage) (tools : Option (List ToolSchema)) :
    (∀ r, primary messages tools = .ok r →
      FallbackLLMClient.chat primary fallback messages tools = .ok r ∧
      ∀ fallback2, FallbackLLMClient.chat primary fallback messages tools =
        FallbackLLMClient.chat primary fallback2 messages tools) ∧
    (∀ e, primary messages tools = .error e →
      (∀ r, fallback messages tools = .ok r →
        FallbackLLMClient.chat primary fallback messages tools = .ok (tagFallback r)) ∧
      (∀ e2, fallback messages tools = .error e2 →
        FallbackLLMClient.chat primary fallback messages tools = .error e2)) := by
  unfold FallbackLLMClient.chat
  constructor
  · intro r hr
    rw [hr]
    exact ⟨rfl, fun fallback2 => rfl⟩
  · intro e he
    rw [he]
    constructor
    · intro r hr; rw [hr]
    · intro e2 he2; rw [he2]

theorem fallback_client_chat_contract_witness :
    ((fun _ _ => Except.error "ConnectError: connection refused") : ChatFun) [] none =
        Except.error "ConnectError: connection refused" ∧
      FallbackLLMClient.chat (fun _ _ => .error "ConnectError: connection refused")
          (fun _ _ => .ok { provider := "openai" }) [] none =
        .ok (tagFallback { provider := "openai" }) :=
  ⟨rfl,
    ((fallback_client_chat_contract (fun _ _ => .error "ConnectError: connection refused")
          (fun _ _ => .ok { provider := "openai" }) [] none).2
        "ConnectError: connection refused" rfl).1 { provider := "openai" } rfl⟩

/-! ## Deterministic amount correction (`orchestrator.py` lines 990-1015) -/

/-- Models `max(candidates)` on a nonempty list (Python raises on an empty
list; `maybe_fix_amount` only reaches it with at least two candidates). -/
def pyMax : List ℚ → ℚ
  | [] => 0
  | x :: xs => xs.foldl max x

/-- Embeds `_maybe_fix_amount` (orchestrator.py lines 990-1015): replace an
obviously truncated parsed amount with a numeric candidate from the raw
text. -/
def maybe_fix_amount (parsed_amount : Option ℚ) (candidates : List ℚ)
    (single_expense : Bool) : Option ℚ :=
  if candidates = [] ∨ single_expense = false then parsed_amount
  else
    match parsed_amount with
    | none => if candidates.length = 1 then some (candidates.headD 0) else none
    | some p =>
        if candidates.length = 1 then
          let candidate := candidates.headD 0
          if candidate ≥ 1000 ∧ p < candidate * (1/2) then some candidate
          else if candidate < 1000 ∧ p > 0 ∧ candidate / p ≥ 5 then some candidate
          else some p
        else
          let largest := pyMax candidates
          if largest ≥ 1000 ∧ p < largest * (1/2) then some largest
          else some p

/-- C7 counterexample: with two candidates whose largest (1000) is at least
1000 and equals exactly twice the parsed amount (500), the code keeps the
parsed amount — the condition is the strict `parsed < largest * 0.5`, so
the claimed replacement at exactly double does not happen. -/
theorem maybe_fix_amount_exact_double_counterexample :
    maybe_fix_amount (some 500) [1000, 3] true = some 500 ∧
      pyMax [1000, 3] = 1000 ∧ (1000 : ℚ) ≥ 1000 ∧ (1000 : ℚ) = 2 * 500 ∧
      maybe_fix_amount (some 500) [1000, 3] true ≠ some 1000 := by
  have hmax : pyMax [1000, 3] = 1000 := by
    show max (1000 : ℚ) 3 = 1000
    exact max_eq_left (by norm_num)
  have hval : maybe_fix_amount (some 500) [1000, 3] true = some 500 := by
    unfold maybe_fix_amount
    rw [if_neg (by simp)]
    simp only [List.length_cons, List.length_nil]
    rw [if_neg (by norm_num), if_neg]
    show ¬(pyMax [1000, 3] ≥ 1000 ∧ (500 : ℚ) < pyMax [1000, 3] * (1/2))
    rw [hmax]
    rintro ⟨-, h⟩
    norm_num at h
  refine ⟨hval, hmax, by norm_num, by norm_num, ?_⟩
  rw [hval]
  intro h
  rw [Option.some.injEq] at h
  norm_num at h

/-- C7 (amended): when the raw text yields more than one numeric candidate
and an amount was parsed for a single extracted item, the parsed amount is
replaced by the largest candidate exactly when the largest candidate is at
least 1000 and STRICTLY more than double the parsed amount (equivalently,
the parsed amount is strictly below half the largest); at exactly double
the parsed amount is kept. -/
theorem maybe_fix_amount_multi_candidate_rule
    (p : ℚ) (candidates : List ℚ) (h2 : 2 ≤ candidates.length) :
    maybe_fix_amount (some p) candidates true =
      (if pyMax candidates ≥ 1000 ∧ 2 * p < pyMax candidates then some (pyMax candidates)
       else some p) := by
  have hne : ¬(candidates = [] ∨ (true : Bool) = false) := by
    rintro (h | h)
    · rw [h] at h2; simp at h2
    · simp at h
  have hlen : ¬(candidates.length = 1) := by omega
  unfold maybe_fix_amount
  rw [if_neg hne]
  simp only [hlen, if_false]
  by_cases hc : pyMax candidates ≥ 1000 ∧ p < pyMax candidates * (1/2)
  · rw [if_pos hc, if_pos ⟨hc.1, by linarith [hc.2]⟩]
  · rw [if_neg hc, if_neg (by
      rintro ⟨ha, hb⟩
      exact hc ⟨ha, by linarith⟩)]

theorem maybe_fix_amount_multi_candidate_rule_witness :
    2 ≤ ([1200, 30] : List ℚ).length ∧
      maybe_fix_amount (some 500) [1200, 30] true =
        (if pyMax [1200, 30] ≥ 1000 ∧ 2 * 500 < pyMax [1200, 30]
         then some (pyMax [1200, 30]) else some 500) :=
  ⟨by decide, maybe_fix_amount_multi_candidate_rule 500 [1200, 30] (by decide)⟩

/-! ## The split-answer parser (`orchestrator.py` lines 910-931)

Python string primitives are modelled over `List Char`:
`str.replace(" ", "")` is a filter, `str.split("/")` and the whitespace
`str.split()` are explicit recursions, `str.rstrip("%")` drops trailing
percent signs, and the built-in `float` is modelled on the sublanguage of
signed decimal literals (optional sign, digits with an optional fractional
part). Python accepts further forms (exponents, surrounding whitespace,
inf/nan); on every input the model accepts, Python returns the same value
exactly, and the hypotheses of the general theorems below range over the
modelled sublanguage. -/

/-- The numeric value of a digit string, as accumulated by decimal
positional reading. -/
def digitsToNat (l : List Char) : ℕ :=
  l.foldl (fun n c => 10 * n + (c.toNat - 48)) 0

/-- Models `float(s)` for unsigned decimal literals:
`digits+ ('.' digits*)?` or `'.' digits+`. -/
def pyFloatUnsigned (l : List Char) : Option ℚ :=
  let intPart := l.takeWhile Char.isDigit
  let rest := l.dropWhile Char.isDigit
  match rest with
  | [] => if intPart = [] then none else some (digitsToNat intPart)
  | '.' :: frac =>
      if frac.all Char.isDigit ∧ (intPart ≠ [] ∨ frac ≠ []) then
        some ((digitsToNat intPart : ℚ) + (digitsToNat frac : ℚ) / (10 ^ frac.length))
      else none
  | _ => none

/-- Models `float(s)` for signed decimal literals. -/
def pyFloat : List Char → Option ℚ
  | '+' :: rest => pyFloatUnsigned rest
  | '-' :: rest => (pyFloatUnsigned rest).map (fun q => -q)
  | l => pyFloatUnsigned l

/-- Models `text.split(sep)` for a one-character separator: the chunks
between separator occurrences, empty chunks preserved. -/
def pySplitOnAux (sep : Char) : List Char → List Char → List (List Char)
  | [], acc => [acc.reverse]
  | c :: cs, acc =>
      if c = sep then acc.reverse :: pySplitOnAux sep cs []
      else pySplitOnAux sep cs (c :: acc)

/-- Entry point of `pySplitOnAux` with an empty accumulator. -/
def pySplitOn (sep : Char) (l : List Char) : List (List Char) :=
  pySplitOnAux sep l []

/-- The whitespace characters of the Python no-argument `str.split()`
(ASCII range; the inputs of interest contain no exotic whitespace). -/
def isPyWs (c : Char) : Bool :=
  c = ' ' ∨ c = '\t' ∨ c = '\n' ∨ c = '\x0b' ∨ c = '\x0c' ∨ c = '\r'

/-- Models the no-argument `text.split()`: split on whitespace runs,
dropping empty chunks. -/
def pySplitWsAux : List Char → List Char → List (List Char)
  | [], acc => if acc = [] then [] else [acc.reverse]
  | c :: cs, acc =>
      if isPyWs c then
        if acc = [] then pySplitWsAux cs []
        else acc.reverse :: pySplitWsAux cs []
      else pySplitWsAux cs (c :: acc)

/-- Entry point of `pySplitWsAux` with an empty accumulator. -/
def pySplitWs (l : List Char) : List (List Char) :=
  pySplitWsAux l []

/-- Models `word.rstrip("%")`: remove all trailing percent signs. -/
def rstripPercent (l : List Char) : List Char :=
  (l.reverse.dropWhile (fun c => c = '%')).reverse

/-- The percentage loop of `_parse_split` (orchestrator.py lines 924-930):
the first word that parses as a number within 0..100 yields the pair
`(pct, 100 - pct)`; a word parsing outside that range is skipped. -/
def splitPercentLoop : List (List Char) → Option ℚ × Option ℚ
  | [] => (none, none)
  | w :: ws =>
      match pyFloat (rstripPercent w) with
      | some pct =>
          if 0 ≤ pct ∧ pct ≤ 100 then (some pct, some (100 - pct))
          else splitPercentLoop ws
      | none => splitPercentLoop ws

/-- Embeds `_parse_split` (orchestrator.py lines 910-931): strip spaces;
an `A/B` fraction is accepted when both halves parse and the sum is within
0.01 of 100; otherwise fall through to the single-percentage loop. -/
def parse_split (text : List Char) : Option ℚ × Option ℚ :=
  let t := text.filter (fun c => c != ' ')
  if t.contains '/' then
    match pySplitOn '/' t with
    | [p1, p2] =>
        match pyFloat p1, pyFloat p2 with
        | some a, some b =>
            if |a + b - 100| < 1/100 then (some a, some b)
            else splitPercentLoop (pySplitWs t)
        | _, _ => splitPercentLoop (pySplitWs t)
    | _ => splitPercentLoop (pySplitWs t)
  else splitPercentLoop (pySplitWs t)

theorem mem_dropWhile_of_neg {p : Char → Bool} {l : List Char} {a : Char}
    (ha : a ∈ l) (hpa : p a = false) : a ∈ l.dropWhile p := by
  rw [← List.takeWhile_append_dropWhile p l] at ha
  rcases List.mem_append.mp ha with h | h
  · rw [List.mem_takeWhile_imp h] at hpa
    cases hpa
  · exact h

theorem pyFloatUnsigned_none_of_mem {l : List Char} {x : Char}
    (hx : x ∈ l) (hd : x.isDigit = false) (hdot : x ≠ '.') :
    pyFloatUnsigned l = none := by
  have hmem : x ∈ l.dropWhile Char.isDigit := mem_dropWhile_of_neg hx hd
  simp only [pyFloatUnsigned]
  split
  · rename_i heq
    rw [heq] at hmem
    cases hmem
  · rename_i frac heq
    rw [heq] at hmem
    rw [if_neg]
    rintro ⟨hall, -⟩
    rcases List.mem_cons.mp hmem with rfl | hfrac
    · exact hdot rfl
    · have := List.all_eq_true.mp hall x hfrac
      rw [hd] at this
      cases this
  · rfl

theorem pyFloat_none_of_mem {l : List Char} {x : Char}
    (hx : x ∈ l) (hd : x.isDigit = false) (hdot : x ≠ '.')
    (hplus : x ≠ '+') (hminus : x ≠ '-') :
    pyFloat l = none := by
  cases l with
  | nil => cases hx
  | cons c cs =>
      by_cases h1 : c = '+'
      · subst h1
        rcases List.mem_cons.mp hx with rfl | hxs
        · exact absurd rfl hplus
        · show pyFloatUnsigned cs = none
          exact pyFloatUnsigned_none_of_mem hxs hd hdot
      · by_cases h2 : c = '-'
        · subst h2
          rcases List.mem_cons.mp hx with rfl | hxs
          · exact absurd rfl hminus
          · show (pyFloatUnsigned cs).map (fun q => -q) = none
            rw [pyFloatUnsigned_none_of_mem hxs hd hdot]
            rfl
        · have hred : pyFloat (c :: cs) = pyFloatUnsigned (c :: cs) := by
            unfold pyFloat
            split
            · rename_i heq
              rw [List.cons.injEq] at heq
              exact absurd heq.1 h1
            · rename_i heq
              rw [List.cons.injEq] at heq
              exact absurd heq.1 h2
            · rfl
          rw [hred]
          exact pyFloatUnsigned_none_of_mem hx hd hdot

theorem pyFloat_chars_not_ws {l : List Char} {q : ℚ} (h : pyFloat l = some q) :
    ∀ c ∈ l, isPyWs c = false := by
  intro c hc
  cases hcc : isPyWs c with
  | false => rfl
  | true =>
      exfalso
      have hmem : c = ' ' ∨ c = '\t' ∨ c = '\n' ∨ c = '\x0b' ∨ c = '\x0c' ∨ c = '\r' := by
        simpa [isPyWs] using hcc
      rcases hmem with rfl | rfl | rfl | rfl | rfl | rfl <;>
        · rw [pyFloat_none_of_mem hc (by decide) (by decide) (by decide) (by decide)] at h
          cases h

theorem pyFloat_not_mem {l : List Char} {q : ℚ} (h : pyFloat l = some q)
    {x : Char} (hd : x.isDigit = false) (hdot : x ≠ '.')
    (hplus : x ≠ '+') (hminus : x ≠ '-') : x ∉ l := by
  intro hx
  rw [pyFloat_none_of_mem hx hd hdot hplus hminus] at h
  cases h

theorem pySplitOnAux_no_sep {sep : Char} {l : List Char} (h : sep ∉ l) :
    ∀ acc, pySplitOnAux sep l acc = [acc.reverse ++ l] := by
  induction l with
  | nil => intro acc; simp [pySplitOnAux]
  | cons c cs ih =>
      intro acc
      have hc : ¬(c = sep) := fun hh => h (hh ▸ List.mem_cons_self c cs)
      rw [pySplitOnAux, if_neg hc, ih (fun hx => h (List.mem_cons_of_mem c hx)) (c :: acc)]
      simp

theorem pySplitOnAux_append {sep : Char} {sa : List Char} (sb : List Char) (ha : sep ∉ sa) :
    ∀ acc, pySplitOnAux sep (sa ++ sep :: sb) acc =
      (acc.reverse ++ sa) :: pySplitOn sep sb := by
  induction sa with
  | nil => intro acc; simp [pySplitOnAux, pySplitOn]
  | cons c cs ih =>
      intro acc
      have hc : ¬(c = sep) := fun hh => ha (hh ▸ List.mem_cons_self c cs)
      rw [List.cons_append, pySplitOnAux, if_neg hc,
        ih (fun hx => ha (List.mem_cons_of_mem c hx)) (c :: acc)]
      simp

theorem pySplitOn_fraction {sa sb : List Char} (ha : '/' ∉ sa) (hb : '/' ∉ sb) :
    pySplitOn '/' (sa ++ '/' :: sb) = [sa, sb] := by
  unfold pySplitOn
  rw [pySplitOnAux_append sb ha [], pySplitOn, pySplitOnAux_no_sep hb []]
  simp

theorem pySplitWsAux_no_ws {l : List Char} (h : ∀ c ∈ l, isPyWs c = false) :
    ∀ acc, pySplitWsAux l acc =
      if acc.reverse ++ l = [] then [] else [acc.reverse ++ l] := by
  induction l with
  | nil =>
      intro acc
      simp [pySplitWsAux, List.reverse_eq_nil_iff]
  | cons c cs ih =>
      intro acc
      have hc := h c (List.mem_cons_self c cs)
      rw [pySplitWsAux, hc]
      simp only [Bool.false_eq_true, if_false]
      rw [ih (fun x hx => h x (List.mem_cons_of_mem c hx)) (c :: acc)]
      simp

theorem pySplitWs_single {l : List Char} (h : ∀ c ∈ l, isPyWs c = false) (hne : l ≠ []) :
    pySplitWs l = [l] := by
  unfold pySplitWs
  rw [pySplitWsAux_no_ws h []]
  simp [hne]

theorem dropWhile_eq_self_of_none {p : Char → Bool} {l : List Char}
    (h : ∀ c ∈ l, p c = false) : l.dropWhile p = l := by
  cases l with
  | nil => rfl
  | cons x xs =>
      rw [List.dropWhile_cons, h x (List.mem_cons_self x xs)]
      simp

theorem rstripPercent_id {l : List Char} (h : '%' ∉ l) : rstripPercent l = l := by
  unfold rstripPercent
  rw [dropWhile_eq_self_of_none, List.reverse_reverse]
  intro c hc
  have hcl : c ∈ l := List.mem_reverse.mp hc
  exact decide_eq_false fun hcc => h (hcc ▸ hcl)

theorem parse_split_70_30 : parse_split "70/30".toList = (some 70, some 30) := by
  show parse_split ['7', '0', '/', '3', '0'] = (some 70, some 30)
  simp +decide [parse_split, pySplitOn, pySplitOnAux, pySplitWs, pySplitWsAux,
    splitPercentLoop, rstripPercent, pyFloat, pyFloatUnsigned, digitsToNat, isPyWs,
    List.takeWhile_cons, List.dropWhile_cons]
  norm_num

theorem parse_split_60_pct : parse_split "60%".toList = (some 60, some 40) := by
  show parse_split ['6', '0', '%'] = (some 60, some 40)
  simp +decide [parse_split, pySplitOn, pySplitOnAux, pySplitWs, pySplitWsAux,
    splitPercentLoop, rstripPercent, pyFloat, pyFloatUnsigned, digitsToNat, isPyWs,
    List.takeWhile_cons, List.dropWhile_cons]
  norm_num

/-- C8: the split-answer parser yields (70, 30) on "70/30"; every `A/B`
fraction whose halves parse as numbers that miss 100 by at least the 0.01
tolerance yields (None, None); and the bare percentage "60%" yields
(60, 40), the complement to 100. -/
theorem parse_split_spec :
    parse_split "70/30".toList = (some 70, some 30) ∧
    (∀ (sa sb : List Char) (a b : ℚ),
      pyFloat sa = some a → pyFloat sb = some b → 1/100 ≤ |a + b - 100| →
      parse_split (sa ++ '/' :: sb) = (none, none)) ∧
    parse_split "60%".toList = (some 60, some 40) := by
  refine ⟨parse_split_70_30, ?_, parse_split_60_pct⟩
  intro sa sb a b ha hb htol
  have hwsa := pyFloat_chars_not_ws ha
  have hwsb := pyFloat_chars_not_ws hb
  have hwchars : ∀ c ∈ sa ++ '/' :: sb, isPyWs c = false := by
    intro c hc
    rcases List.mem_append.mp hc with h | h
    · exact hwsa c h
    · rcases List.mem_cons.mp h with rfl | h
      · decide
      · exact hwsb c h
  have hfilter : (sa ++ '/' :: sb).filter (fun c => c != ' ') = sa ++ '/' :: sb := by
    rw [List.filter_eq_self]
    intro c hc
    rw [bne_iff_ne]
    rintro rfl
    exact absurd (hwchars ' ' hc) (by decide)
  have hslash_a : '/' ∉ sa :=
    pyFloat_not_mem ha (by decide) (by decide) (by decide) (by decide)
  have hslash_b : '/' ∉ sb :=
    pyFloat_not_mem hb (by decide) (by decide) (by decide) (by decide)
  have hsplit := pySplitOn_fraction hslash_a hslash_b
  have hmem : '/' ∈ sa ++ '/' :: sb := List.mem_append_right sa (List.mem_cons_self _ _)
  have hcontains : (sa ++ '/' :: sb).contains '/' = true := by
    simp
  have hpct : '%' ∉ sa ++ '/' :: sb := by
    intro hx
    rcases List.mem_append.mp hx with h | h
    · exact pyFloat_not_mem ha (by decide) (by decide) (by decide) (by decide) h
    · rcases List.mem_cons.mp h with h | h
      · exact absurd h (by decide)
      · exact pyFloat_not_mem hb (by decide) (by decide) (by decide) (by decide) h
  have hnone : pyFloat (sa ++ '/' :: sb) = none :=
    pyFloat_none_of_mem hmem (by decide) (by decide) (by decide) (by decide)
  have htail : splitPercentLoop (pySplitWs (sa ++ '/' :: sb)) = (none, none) := by
    rw [pySplitWs_single hwchars (by simp)]
    simp [splitPercentLoop, rstripPercent_id hpct, hnone]
  unfold parse_split
  simp only [hfilter, hcontains, if_true, hsplit, ha, hb]
  rw [if_neg (not_lt.mpr htol)]
  exact htail

theorem parse_split_spec_witness :
    pyFloat ['6', '0'] = some 60 ∧
      (1 : ℚ)/100 ≤ |60 + 60 - 100| ∧
      parse_split (['6', '0'] ++ '/' :: ['6', '0']) = (none, none) := by
  have h60 : pyFloat ['6', '0'] = some 60 := by
    simp +decide [pyFloat, pyFloatUnsigned, digitsToNat,
      List.takeWhile_cons, List.dropWhile_cons]
  refine ⟨h60, by norm_num, ?_⟩
  exact parse_split_spec.2.1 ['6', '0'] ['6', '0'] 60 60 h60 h60 (by norm_num)

/-! ## Manual clarification merge (`orchestrator.py` lines 871-907) -/

/-- Models the no-argument `str.strip()`: remove leading and trailing
whitespace. -/
def pyStrip (l : List Char) : List Char :=
  ((l.dropWhile isPyWs).reverse.dropWhile isPyWs).reverse

/-- Models `str.lower()` (the inputs of interest are ASCII). -/
def pyLower (l : List Char) : List Char := l.map Char.toLower

/-- Models `getattr(exp, field_name, "NOT_MISSING") is not None` in
`_merge_field_manually`: true for an optional attribute holding a value,
for every non-optional attribute, and for unknown attribute names (the
`"NOT_MISSING"` default). -/
def PendingExpense.attrIsNotNone (e : PendingExpense) (f : String) : Bool :=
  if f = "amount" then e.amount.isSome
  else if f = "category" then e.category.isSome
  else if f = "description" then e.description.isSome
  else if f = "payer" then e.payer.isSome
  else if f = "split_payer_pct" then e.split_payer_pct.isSome
  else if f = "split_other_pct" then e.split_other_pct.isSome
  else if f = "event_date" then e.event_date.isSome
  else true

/-- Embeds `_merge_field_manually` (orchestrator.py lines 871-907): apply
the lowercased, stripped answer to every pending expense still missing the
target field; the in-place mutation of the Python loop is rendered as a
map. -/
def merge_field_manually (expenses : List PendingExpense) (field_name : String)
    (answer : List Char) : List PendingExpense :=
  let answer_stripped := pyLower (pyStrip answer)
  expenses.map fun exp =>
    if exp.attrIsNotNone field_name then exp
    else if field_name = "payer" then
      if answer_stripped ∈
          ["me".toList, "i".toList, "i did".toList, "i paid".toList, "user".toList] then
        { exp with payer := some "user" }
      else if answer_stripped ∈
          ["partner".toList, "they".toList, "they did".toList, "them".toList] then
        { exp with payer := some "partner" }
      else { exp with payer := some "user" }
    else if field_name = "split_payer_pct" ∨ field_name = "split_other_pct" then
      match parse_split answer_stripped with
      | (some payer_pct, other_pct) =>
          { exp with split_payer_pct := some payer_pct, split_other_pct := other_pct }
      | (none, _) => exp
    else if field_name = "category" then
      { exp with
          category := if answer_stripped = [] then none else some (String.mk answer_stripped) }
    else if field_name = "amount" then
      match pyFloat (answer_stripped.filter (fun c => c != ',')) with
      | some v => { exp with amount := some v }
      | none => exp
    else exp

theorem parse_split_150_m50 : parse_split "150/-50".toList = (some 150, some (-50)) := by
  show parse_split ['1', '5', '0', '/', '-', '5', '0'] = (some 150, some (-50))
  simp +decide [parse_split, pySplitOn, pySplitOnAux, pySplitWs, pySplitWsAux,
    splitPercentLoop, rstripPercent, pyFloat, pyFloatUnsigned, digitsToNat, isPyWs,
    List.takeWhile_cons, List.dropWhile_cons]
  norm_num

theorem parse_split_150_pct : parse_split "150%".toList = (none, none) := by
  show parse_split ['1', '5', '0', '%'] = (none, none)
  simp +decide [parse_split, pySplitOn, pySplitOnAux, pySplitWs, pySplitWsAux,
    splitPercentLoop, rstripPercent, pyFloat, pyFloatUnsigned, digitsToNat, isPyWs,
    List.takeWhile_cons, List.dropWhile_cons]

/-- C9: the fraction form accepts components outside 0..100 as long as they
sum to 100 within tolerance — the answer "150 slash -50" parses as
`(150, -50)` and the manual merge stores exactly those values as the split
percentages of an expense whose split was missing — while the 0-to-100
range restriction is enforced only on the single-percentage form
("150%" is rejected). -/
theorem parse_split_range_only_on_percent_form :
    parse_split "150/-50".toList = (some 150, some (-50)) ∧
    merge_field_manually
        [{ amount := some 200, category := some "rent", payer := some "user" }]
        "split_payer_pct" "150/-50".toList =
      [{ amount := some 200, category := some "rent", payer := some "user",
          split_payer_pct := some 150, split_other_pct := some (-50) }] ∧
    parse_split "150%".toList = (none, none) := by
  refine ⟨parse_split_150_m50, ?_, parse_split_150_pct⟩
  have hstrip : pyLower (pyStrip ['1', '5', '0', '/', '-', '5', '0']) =
      ['1', '5', '0', '/', '-', '5', '0'] := by decide
  have hp : parse_split ['1', '5', '0', '/', '-', '5', '0'] = (some 150, some (-50)) :=
    parse_split_150_m50
  simp +decide [merge_field_manually, PendingExpense.attrIsNotNone, hstrip, hp]

/-! ## The orchestrator state machine (`agent/orchestrator.py`)

The per-user slot of the conversation store is modelled as
`Option ConversationContext` (`none` = absent user). `OStep` below lists
every write a public entry point (`handle_message`, `handle_callback`) can
perform on the slot; the LLM is an untrusted oracle, so every payload it
influences (parsed expenses, merged expenses, settlement data) is
universally quantified, making the relation a sound over-approximation of
the reachable writes. -/

/-- Embeds `_apply_default_split` (orchestrator.py lines 934-939). -/
def apply_default_split (l : List PendingExpense) : List PendingExpense :=
  l.map fun e =>
    if e.split_payer_pct = none ∧ e.split_other_pct = none then
      { e with split_payer_pct := some 50, split_other_pct := some 50 }
    else e

/-- Embeds `_default_missing_payers_to_user` (orchestrator.py lines
942-946). -/
def default_missing_payers_to_user (l : List PendingExpense) : List PendingExpense :=
  l.map fun e => if e.payer = none then { e with payer := some "user" } else e

/-- Embeds the context updates of `Orchestrator._validate` (orchestrator.py
lines 580-622), parameterized by the `settings.assume_half_split` flag; the
reply building is outside the model. The arm where `first_missing` returns
nothing although a field is missing is excluded by the assert at line 610
and leaves the context unchanged here. -/
def validateCtx (halfSplit : Bool) (ctx : ConversationContext) : ConversationContext :=
  let ctx1 :=
    if halfSplit then
      { ctx with pending_expenses := apply_default_split ctx.pending_expenses }
    else ctx
  if ctx1.all_complete then { ctx1 with state := .CONFIRMING }
  else
    match ctx1.first_missing with
    | some (_, f) => { ctx1 with state := .CLARIFYING, clarification_field := some f }
    | none => ctx1

/-- The fresh context `handle_message` builds for a new round
(orchestrator.py lines 185-189). -/
def freshParsing (raw_input_id : Option ℕ) (text : String) : ConversationContext :=
  { state := .PARSING, raw_input_id := raw_input_id, original_text := some text }

/-- The pending settlement expense built by `_handle_settlement`
(orchestrator.py lines 519-528): split fixed at 100 and 0. -/
def settlementPending (amount : ℚ) (payer : Option String)
    (description event_date : Option String) : PendingExpense :=
  { amount := some amount, currency := "ILS", category := none,
    description := description, payer := payer,
    split_payer_pct := some 100, split_other_pct := some 0,
    event_date := event_date }

/-- Python truthiness of the optional payer string (`if not pending.payer`,
orchestrator.py line 534): missing or empty. -/
def payerFalsy (p : Option String) : Bool :=
  p = none ∨ p = some ""

/-- The state the entry points observe for a slot: the stored state, or
IDLE for an absent user (`store.get` creates a default IDLE context). -/
def slotState : Option ConversationContext → ConversationState
  | none => ConversationState.IDLE
  | some c => c.state

/-- One observable write to a user's slot in the conversation store, as
performed by the orchestrator's public operations. Each constructor names
the code path performing the write. -/
inductive OStep (halfSplit : Bool) :
    Option ConversationContext → Option ConversationContext → Prop where
  /-- `ConversationStore.get` inserts a fresh IDLE context for an absent
  user (state.py lines 178-182; reached from orchestrator.py lines 175 and
  210). -/
  | store_get_creates :
      OStep halfSplit none (some ConversationContext.init)
  /-- `handle_message` outside CLARIFYING starts a fresh round
  (orchestrator.py lines 184-190). -/
  | fresh_parse (prev : Option ConversationContext) (raw : Option ℕ) (text : String)
      (h : slotState prev ≠ ConversationState.CLARIFYING) :
      OStep halfSplit prev (some (freshParsing raw text))
  /-- `ConversationStore.clear` removes the slot (auth errors, LLM
  failures, non-expense intents, failed settlements, commit completion and
  cancel all clear: orchestrator.py lines 83, 266, 291, 298, 302, 475, 493,
  512, 705, 762, 797). -/
  | clear_slot (prev : Option ConversationContext) :
      OStep halfSplit prev none
  /-- `_handle_settlement` with a falsy payer enters CLARIFYING asking who
  paid (orchestrator.py lines 530-541). -/
  | settlement_clarify (c : ConversationContext) (amount : ℚ)
      (payer : Option String) (description event_date : Option String)
      (hstate : c.state = ConversationState.PARSING)
      (hpayer : payerFalsy payer = true) :
      OStep halfSplit (some c)
        (some { c with
          pending_expenses := [settlementPending amount payer description event_date],
          is_settlement := true,
          state := ConversationState.CLARIFYING,
          clarification_field := some "payer" })
  /-- `_handle_settlement` with a payer present goes straight to CONFIRMING
  (orchestrator.py lines 530-531 and 543-554). -/
  | settlement_confirm (c : ConversationContext) (amount : ℚ)
      (payer : Option String) (description event_date : Option String)
      (hstate : c.state = ConversationState.PARSING)
      (hpayer : payerFalsy payer = false) :
      OStep halfSplit (some c)
        (some { c with
          pending_expenses := [settlementPending amount payer description event_date],
          is_settlement := true,
          state := ConversationState.CONFIRMING })
  /-- `_parse_and_validate` stores the built pending expenses with missing
  payers defaulted, in state VALIDATING (orchestrator.py lines 318-325). -/
  | parse_builds (c : ConversationContext) (exps : List PendingExpense)
      (hstate : c.state = ConversationState.PARSING) :
      OStep halfSplit (some c)
        (some { c with
          pending_expenses := default_missing_payers_to_user exps,
          state := ConversationState.VALIDATING })
  /-- `_handle_clarification_answer` merges the answer (wholesale LLM
  replacement of matching length, or the manual merge), clears the
  clarification field and stores state VALIDATING (orchestrator.py lines
  670-691). -/
  | clarify_merge (c : ConversationContext) (merged : List PendingExpense)
      (hstate : c.state = ConversationState.CLARIFYING) :
      OStep halfSplit (some c)
        (some { c with
          pending_expenses := merged,
          state := ConversationState.VALIDATING,
          clarification_field := none })
  /-- `_validate` moves a VALIDATING context to CONFIRMING or CLARIFYING
  (orchestrator.py lines 580-622). -/
  | run_validate (c : ConversationContext)
      (hstate : c.state = ConversationState.VALIDATING) :
      OStep halfSplit (some c) (some (validateCtx halfSplit c))
  /-- `_start_edit` from CONFIRMING: back to CLARIFYING with no specific
  clarification field (orchestrator.py lines 771-779). -/
  | callback_edit (c : ConversationContext)
      (hstate : c.state = ConversationState.CONFIRMING) :
      OStep halfSplit (some c)
        (some { c with
          state := ConversationState.CLARIFYING, clarification_field := none })
  /-- `_commit` stores COMMITTING just before the final clear
  (orchestrator.py lines 744-745). -/
  | callback_commit (c : ConversationContext)
      (hstate : c.state = ConversationState.CONFIRMING) :
      OStep halfSplit (some c) (some { c with state := ConversationState.COMMITTING })

/-- The slots reachable from the empty slot (fresh process or cleared user)
through any sequence of public-operation writes. -/
def OReachable (halfSplit : Bool) (oc : Option ConversationContext) : Prop :=
  Relation.ReflTransGen (OStep halfSplit) none oc

theorem validateCtx_cf (hs : Bool) (c : ConversationContext)
    (hcf : c.clarification_field = none) :
    (validateCtx hs c).clarification_field ≠ none →
    (validateCtx hs c).state = ConversationState.CLARIFYING := by
  unfold validateCtx
  set ctx1 := if hs then
    { c with pending_expenses := apply_default_split c.pending_expenses } else c with hctx1
  have hcf1 : ctx1.clarification_field = none := by
    rw [hctx1]
    split <;> simp [hcf]
  by_cases hac : ctx1.all_complete = true
  · rw [if_pos hac]
    intro h
    exact absurd hcf1 h
  · rw [if_neg hac]
    cases hfm : ctx1.first_missing with
    | none =>
        intro h
        exact absurd hcf1 h
    | some p =>
        obtain ⟨i, f⟩ := p
        intro _
        rfl

/-- C3 (amended): in every slot reachable through the public operations, a
set clarification_field implies the state is CLARIFYING. The converse of
the claimed invariant fails — see the counterexample theorem: the Edit
callback from CONFIRMING produces a CLARIFYING context whose
clarification_field is unset (general-edit mode). -/
theorem clarification_field_implies_clarifying (hs : Bool)
    (oc : Option ConversationContext) (hreach : OReachable hs oc) :
    ∀ c, oc = some c → c.clarification_field ≠ none →
      c.state = ConversationState.CLARIFYING := by
  induction hreach with
  | refl => intro c h; cases h
  | tail hr step ih =>
      intro c h hcf
      cases step with
      | store_get_creates =>
          cases h
          exact absurd rfl hcf
      | fresh_parse prev raw text hpr =>
          cases h
          exact absurd rfl hcf
      | clear_slot prev => cases h
      | settlement_clarify c' amount payer d e hstate hpayer =>
          cases h
          rfl
      | settlement_confirm c' amount payer d e hstate hpayer =>
          cases h
          have hcf' : c'.clarification_field = none := by
            by_contra hne
            have := ih c' rfl hne
            rw [hstate] at this
            cases this
          exact absurd hcf' hcf
      | parse_builds c' exps hstate =>
          cases h
          have hcf' : c'.clarification_field = none := by
            by_contra hne
            have := ih c' rfl hne
            rw [hstate] at this
            cases this
          exact absurd hcf' hcf
      | clarify_merge c' merged hstate =>
          cases h
          exact absurd rfl hcf
      | run_validate c' hstate =>
          cases h
          have hcf' : c'.clarification_field = none := by
            by_contra hne
            have := ih c' rfl hne
            rw [hstate] at this
            cases this
          exact validateCtx_cf hs c' hcf' hcf
      | callback_edit c' hstate =>
          cases h
          exact absurd rfl hcf
      | callback_commit c' hstate =>
          cases h
          have hcf' : c'.clarification_field = none := by
            by_contra hne
            have := ih c' rfl hne
            rw [hstate] at this
            cases this
          exact absurd hcf' hcf

/-- The fully specified expense used by the concrete orchestrator runs. -/
def groceriesExpense : PendingExpense :=
  { amount := some 300, category := some "groceries", payer := some "user",
    split_payer_pct := some 50, split_other_pct := some 50 }

/-- A concrete context literal at the given state, holding the groceries
expense, used by the concrete orchestrator runs. -/
def groceriesCtx (s : ConversationState) : ConversationContext :=
  { state := s,
    raw_input_id := none,
    pending_expenses := [groceriesExpense],
    clarification_field := none,
    confirmation_message_id := none,
    original_text := some "groceries 300",
    is_settlement := false,
    renaming_category := none }

/-- C3 counterexample: a concrete run — fresh message, parse to a complete
expense, validate to CONFIRMING, then the Edit callback — reaches a stored
context in state CLARIFYING whose clarification_field is none, refuting the
claimed "clarification_field is non-None if and only if state is
CLARIFYING" invariant in the only-if direction. -/
theorem clarification_iff_counterexample :
    OReachable false (some (groceriesCtx ConversationState.CLARIFYING)) ∧
      (groceriesCtx ConversationState.CLARIFYING).state = ConversationState.CLARIFYING ∧
      (groceriesCtx ConversationState.CLARIFYING).clarification_field = none := by
  refine ⟨?_, rfl, rfl⟩
  have s1 : OStep false none (some (freshParsing none "groceries 300")) :=
    OStep.fresh_parse none none "groceries 300" (by decide)
  have s2 : OStep false (some (freshParsing none "groceries 300"))
      (some { freshParsing none "groceries 300" with
              pending_expenses := default_missing_payers_to_user [groceriesExpense],
              state := ConversationState.VALIDATING }) :=
    OStep.parse_builds _ _ rfl
  have h2 : ({ freshParsing none "groceries 300" with
               pending_expenses := default_missing_payers_to_user [groceriesExpense],
               state := ConversationState.VALIDATING } : ConversationContext) =
      groceriesCtx ConversationState.VALIDATING := by decide
  rw [h2] at s2
  have s3 : OStep false (some (groceriesCtx ConversationState.VALIDATING))
      (some (validateCtx false (groceriesCtx ConversationState.VALIDATING))) :=
    OStep.run_validate _ rfl
  have h3 : validateCtx false (groceriesCtx ConversationState.VALIDATING) =
      groceriesCtx ConversationState.CONFIRMING := by decide
  rw [h3] at s3
  have s4 : OStep false (some (groceriesCtx ConversationState.CONFIRMING))
      (some { groceriesCtx ConversationState.CONFIRMING with
              state := ConversationState.CLARIFYING, clarification_field := none }) :=
    OStep.callback_edit _ rfl
  have h4 : ({ groceriesCtx ConversationState.CONFIRMING with
               state := ConversationState.CLARIFYING,
               clarification_field := none } : ConversationContext) =
      groceriesCtx ConversationState.CLARIFYING := by decide
  rw [h4] at s4
  exact Relation.ReflTransGen.tail
    (Relation.ReflTransGen.tail
      (Relation.ReflTransGen.tail (Relation.ReflTransGen.single s1) s2) s3) s4

/-- The concrete settlement-clarification context used by the witness
below. -/
def settleClarifyCtx : ConversationContext :=
  { state := ConversationState.CLARIFYING,
    raw_input_id := none,
    pending_expenses := [settlementPending 100 none none none],
    clarification_field := some "payer",
    confirmation_message_id := none,
    original_text := some "settle up",
    is_settlement := true,
    renaming_category := none }

theorem clarification_field_implies_clarifying_witness :
    OReachable false (some settleClarifyCtx) ∧
      settleClarifyCtx.clarification_field ≠ none ∧
      settleClarifyCtx.state = ConversationState.CLARIFYING := by
  have s1 : OStep false none (some (freshParsing none "settle up")) :=
    OStep.fresh_parse none none "settle up" (by decide)
  have s2 : OStep false (some (freshParsing none "settle up"))
      (some { freshParsing none "settle up" with
              pending_expenses := [settlementPending 100 none none none],
              is_settlement := true,
              state := ConversationState.CLARIFYING,
              clarification_field := some "payer" }) :=
    OStep.settlement_clarify _ 100 none none none rfl (by decide)
  have h2 : ({ freshParsing none "settle up" with
               pending_expenses := [settlementPending 100 none none none],
               is_settlement := true,
               state := ConversationState.CLARIFYING,
               clarification_field := some "payer" } : ConversationContext) =
      settleClarifyCtx := by decide
  rw [h2] at s2
  have hchain : OReachable false (some settleClarifyCtx) :=
    Relation.ReflTransGen.tail (Relation.ReflTransGen.single s1) s2
  exact ⟨hchain, by decide,
    clarification_field_implies_clarifying false _ hchain _ rfl (by decide)⟩

end Finbot
